import Mathlib

/-!
# Verification of the Slingshot telemetry core

Shallow embedding of the stateful synchronization core of the Slingshot
market-telemetry client:

* the candle ingestion branch of the stream message handler
  (`src/app/store/telemetryStore.ts`, `ws.onmessage`, candle case),
* the connection lifecycle (`doConnect`, `ws.onopen`, `ws.onclose`,
  `disconnect`) with retry bookkeeping,
* the indicator math (`calcEMA`, `calcRSI`, `calcMACD`) and the defensive
  candle sanitization of `src/app/components/ui/TradingChart.tsx`,
* the dynamic pane layout computation of the same component, and
* `toggleIndicator` of `src/app/store/indicatorsStore.ts`.

JavaScript numbers are modelled as rationals (`ℚ`), candle timestamps as
integers, and the mutable store state as an explicit state record threaded
through the handler functions.
-/

namespace Slingshot

/-- One OHLCV candle (`CandleData` in `telemetryStore.ts`).  The wire type of
`time` is `number | string`; every comparison in the code is either strict
equality or numeric, so it is modelled as an integer timestamp. -/
structure Candle where
  time : Int
  «open» : ℚ
  high : ℚ
  low : ℚ
  close : ℚ
  volume : ℚ
  deriving DecidableEq, Repr

/-- One point of an indicator series (`{ time, value }`). -/
structure Point where
  time : Int
  value : ℚ
  deriving DecidableEq, Repr

/-- One point of the MACD histogram (`{ time, value, color }`). -/
structure HistPoint where
  time : Int
  value : ℚ
  color : String
  deriving DecidableEq, Repr

/-- Adjacent-pairs chain check: `chainB r [a, b, c]` is `r a b && r b c`.
Used to state orderings of candle and tick sequences executably. -/
def chainB (r : α → α → Bool) : List α → Bool
  | [] => true
  | [_] => true
  | a :: b :: l => r a b && chainB r (b :: l)

/-- The ledger ordering predicate: candle times strictly ascending. -/
def ascTimesB (l : List Candle) : Bool :=
  chainB (fun a b => decide (a.time < b.time)) l

/-- Non-decreasing times, the ordering in which ticks of an in-progress bar
followed by newer bars arrive from the stream. -/
def leTimesB (l : List Candle) : Bool :=
  chainB (fun a b => decide (a.time ≤ b.time)) l

/-- `lastRelB r l c` relates the last element of `l` (if any) to `c`. -/
def lastRelB (r : α → α → Bool) (l : List α) (c : α) : Bool :=
  match l.getLast? with
  | none => true
  | some x => r x c

/-- The candle branch of `ws.onmessage` (`telemetryStore.ts:464-473`): if the
ledger is non-empty and the last candle has the same `time`, the last candle is
replaced in place; otherwise the tick is pushed, and if the length then exceeds
1000 the oldest candle is shifted from the front.  There is no ordering or
well-formedness check on the incoming tick. -/
def upsertCandle (candles : List Candle) (newCandle : Candle) : List Candle :=
  match candles.getLast? with
  | some last =>
      if last.time = newCandle.time then
        candles.dropLast ++ [newCandle]
      else
        let pushed := candles ++ [newCandle]
        if pushed.length > 1000 then pushed.drop 1 else pushed
  | none =>
      let pushed := candles ++ [newCandle]
      if pushed.length > 1000 then pushed.drop 1 else pushed

/-! ## Indicator math (`TradingChart.tsx:21-91`) -/

/-- The EMA recurrence of `calcEMA` (`TradingChart.tsx:27-30`): each further
candle contributes `close * k + ema * (1 - k)` and is emitted at its time. -/
def emaLoop (k : ℚ) (ema : ℚ) : List Candle → List Point
  | [] => []
  | c :: rest =>
      let e := c.close * k + ema * (1 - k)
      ⟨c.time, e⟩ :: emaLoop k e rest

/-- `calcEMA` (`TradingChart.tsx:21-32`): empty when fewer than `period`
candles; otherwise the seed is the simple mean of the first `period` closes,
emitted at the `period`-th candle's time, and the recurrence with
`k = 2/(period+1)` continues over the remaining candles.  (For `period = 0`
the JavaScript code faults on an out-of-bounds index; no caller uses it.) -/
def calcEMA (candles : List Candle) (period : Nat) : List Point :=
  if candles.length < period then []
  else
    match candles.drop (period - 1) with
    | [] => []
    | seedC :: rest =>
        let k : ℚ := 2 / ((period : ℚ) + 1)
        let seed : ℚ := ((candles.take period).map Candle.close).sum / (period : ℚ)
        ⟨seedC.time, seed⟩ :: emaLoop k seed rest

/-- Close-to-close changes `candles[i].close - candles[i-1].close`. -/
def deltas (l : List Candle) : List ℚ :=
  (l.zip l.tail).map (fun p => p.2.close - p.1.close)

/-- One RSI value from smoothed averages (`TradingChart.tsx:61-62,69-70`):
`rs` is 100 when `avgLoss` is zero, else `avgGain / avgLoss`, and the value is
`100 - 100 / (1 + rs)`. -/
def rsiPoint (avgGain avgLoss : ℚ) : ℚ :=
  let rs := if avgLoss = 0 then 100 else avgGain / avgLoss
  100 - 100 / (1 + rs)

/-- The Wilder-smoothing loop of `calcRSI` (`TradingChart.tsx:63-71`). -/
def rsiLoop (period : Nat) (avgGain avgLoss prevClose : ℚ) :
    List Candle → List Point
  | [] => []
  | c :: rest =>
      let change := c.close - prevClose
      let gain := if change > 0 then change else 0
      let loss := if change < 0 then -change else 0
      let avgGain' := (avgGain * ((period : ℚ) - 1) + gain) / (period : ℚ)
      let avgLoss' := (avgLoss * ((period : ℚ) - 1) + loss) / (period : ℚ)
      ⟨c.time, rsiPoint avgGain' avgLoss'⟩ :: rsiLoop period avgGain' avgLoss' c.close rest

/-- `calcRSI` (`TradingChart.tsx:50-73`): empty when fewer than `period + 1`
candles; otherwise the initial average gain/loss are taken over the first
`period` close-to-close changes (a non-positive change accrues to the loss
side, exactly as the `else` branch of the source does), the first point is
emitted at the `period`-indexed candle's time, and Wilder smoothing continues
over the remaining candles. -/
def calcRSI (candles : List Candle) (period : Nat) : List Point :=
  if candles.length < period + 1 then []
  else
    let ds := deltas (candles.take (period + 1))
    let avgGain := ((ds.map (fun d => if d > 0 then d else 0)).sum) / (period : ℚ)
    let avgLoss := ((ds.map (fun d => if d > 0 then 0 else -d)).sum) / (period : ℚ)
    match candles.drop period with
    | [] => []
    | c0 :: rest =>
        ⟨c0.time, rsiPoint avgGain avgLoss⟩ :: rsiLoop period avgGain avgLoss c0.close rest

/-- Lookup in a `Map` built from a point list (`new Map(list.map(...))`):
JavaScript `Map` construction keeps the last entry for a duplicated key. -/
def lastLookup (l : List Point) (t : Int) : Option ℚ :=
  (l.reverse.find? (fun p => p.time == t)).map Point.value

/-- The three series returned by `calcMACD`. -/
structure MACDResult where
  macdLine : List Point
  signalLine : List Point
  histogram : List HistPoint
  deriving Repr

/-- `calcMACD` (`TradingChart.tsx:75-91`): the macd line is the fast EMA minus
the slow EMA restricted to timestamps present in the slow EMA; the signal line
is the EMA (period `signal`) of the macd line viewed as a synthetic candle
series; the histogram is the macd line restricted to timestamps present in the
signal line, valued `macd - signal` and colored by sign. -/
def calcMACD (candles : List Candle) (fast slow signal : Nat) : MACDResult :=
  let emaFast := calcEMA candles fast
  let emaSlow := calcEMA candles slow
  let macdLine :=
    (emaFast.filter (fun d => (lastLookup emaSlow d.time).isSome)).map
      (fun d => Point.mk d.time (d.value - (lastLookup emaSlow d.time).getD 0))
  let syntheticCandles :=
    macdLine.map (fun d => Candle.mk d.time d.value d.value d.value d.value 0)
  let signalLine := calcEMA syntheticCandles signal
  let histogram :=
    (macdLine.filter (fun d => (lastLookup signalLine d.time).isSome)).map
      (fun d =>
        let hv := d.value - (lastLookup signalLine d.time).getD 0
        HistPoint.mk d.time hv (if hv ≥ 0 then "#26A69A" else "#EF5350"))
  ⟨macdLine, signalLine, histogram⟩

/-- Duplicate-collapsing pass of the sanitization filter
(`TradingChart.tsx:238`): an element is kept iff it is first or its time
differs from the time of the element directly before it in the array. -/
def dedupeGo (prev : Candle) : List Candle → List Candle
  | [] => []
  | c :: rest =>
      if c.time ≠ prev.time then c :: dedupeGo c rest else dedupeGo c rest

/-- `filter((c, i, arr) => i === 0 || c.time !== arr[i - 1].time)`. -/
def dedupeAdj : List Candle → List Candle
  | [] => []
  | c :: rest => c :: dedupeGo c rest

/-- The defensive sanitization of `sortedCandles` (`TradingChart.tsx:236-238`):
stable ascending sort by time (JavaScript `sort` is stable, comparator
`Number(a.time) - Number(b.time)`), then the adjacent-duplicate filter. -/
def sanitize (candles : List Candle) : List Candle :=
  dedupeAdj (candles.mergeSort (fun a b => decide (a.time ≤ b.time)))

/-! ## Telemetry store state (`telemetryStore.ts`) -/

/-- `NeuralLog`. -/
structure NeuralLog where
  id : String
  timestamp : String
  type : String
  message : String
  deriving DecidableEq, Repr

/-- `KeyLevel`. -/
structure KeyLevel where
  price : ℚ
  touches : Nat
  zone_top : ℚ
  zone_bottom : ℚ
  type : String
  origin : String
  strength : String
  is_active : Bool
  ob_confluence : Bool
  volume_score : ℚ
  mtf_confluence : Bool
  mtf_score : ℚ
  deriving DecidableEq, Repr

/-- The `key_levels` field of a tactical decision. -/
structure KeyLevels where
  resistances : List KeyLevel
  supports : List KeyLevel
  deriving DecidableEq, Repr

/-- `TacticalDecision`. -/
structure TacticalDecision where
  regime : String
  strategy : String
  reasoning : String
  nearest_support : Option ℚ
  nearest_resistance : Option ℚ
  sma_fast : Option ℚ
  sma_slow : Option ℚ
  sma_slow_slope : Option ℚ
  bb_width : Option ℚ
  bb_width_mean : Option ℚ
  dist_to_sma200 : Option ℚ
  signals : List String
  key_levels : KeyLevels
  deriving DecidableEq, Repr

/-- `SessionInfo`. -/
structure SessionInfo where
  high : Option ℚ
  low : Option ℚ
  status : String
  swept_high : Bool
  swept_low : Bool
  deriving DecidableEq, Repr

/-- `SessionData`. -/
structure SessionData where
  current_session : String
  current_session_utc : String
  local_time : String
  is_killzone : Bool
  asia : SessionInfo
  london : SessionInfo
  ny : SessionInfo
  pdh : Option ℚ
  pdl : Option ℚ
  pdh_swept : Bool
  pdl_swept : Bool
  deriving DecidableEq, Repr

/-- `OrderBlockData`. -/
structure OrderBlockData where
  time : Int
  top : ℚ
  bottom : ℚ
  status : String
  confirmation_time : Int
  deriving DecidableEq, Repr

/-- `SMCDataPayload`. -/
structure SMCPayload where
  ob_bullish : List OrderBlockData
  ob_bearish : List OrderBlockData
  fvg_bullish : List OrderBlockData
  fvg_bearish : List OrderBlockData
  deriving DecidableEq, Repr

/-- One level of the liquidity heatmap (`{ price, volume }`). -/
structure PriceVol where
  price : ℚ
  volume : ℚ
  deriving DecidableEq, Repr

/-- The liquidity heatmap payload. -/
structure Heatmap where
  bids : List PriceVol
  asks : List PriceVol
  deriving DecidableEq, Repr

/-- The ML projection snapshot. -/
structure MLProjection where
  direction : String
  probability : ℚ
  reason : Option String
  deriving DecidableEq, Repr

/-- `GhostData`. -/
structure GhostData where
  fear_greed_value : ℚ
  fear_greed_label : String
  btc_dominance : ℚ
  funding_rate : ℚ
  macro_bias : String
  block_longs : Bool
  block_shorts : Bool
  reason : String
  deriving DecidableEq, Repr

/-- The whole mutable state owned by `useTelemetryStore`: the zustand store
fields plus the closure-captured mutable variables `ws` (modelled as "a socket
object currently exists"), `retryCount`, and `retryTimeout` (modelled as "a
retry timer is currently pending"). -/
structure TelemetryState where
  isConnected : Bool
  activeSymbol : String
  activeTimeframe : String
  candles : List Candle
  latestPrice : Option ℚ
  mlProjection : MLProjection
  liquidityHeatmap : Option Heatmap
  neuralLogs : List NeuralLog
  tacticalDecision : TacticalDecision
  smcData : Option SMCPayload
  sessionData : Option SessionData
  ghostData : Option GhostData
  ws : Bool
  retryCount : Nat
  retryTimeout : Bool
  deriving Repr

/-- `MAX_RETRIES` (`telemetryStore.ts:405`). -/
def MAX_RETRIES : Nat := 5

/-- The placeholder tactical decision written by a fresh `doConnect`
(`telemetryStore.ts:430-437`). -/
def connectingTactical (symbol : String) : TacticalDecision where
  regime := "ANALIZANDO NUEVO RIESGO..."
  strategy := "STANDBY"
  reasoning := "Sincronizando telemetría para " ++ symbol ++ "."
  nearest_support := none
  nearest_resistance := none
  sma_fast := none
  sma_slow := none
  sma_slow_slope := none
  bb_width := none
  bb_width_mean := none
  dist_to_sma200 := none
  signals := []
  key_levels := ⟨[], []⟩

/-- The placeholder ML projection written by a fresh `doConnect`
(`telemetryStore.ts:429`). -/
def connectingProjection : MLProjection :=
  ⟨"NEUTRAL", 50, some "Aguardando conexión de telemetría..."⟩

/-- `doConnect` (`telemetryStore.ts:407-443`): close and null any existing
socket, clear any pending retry timer, on a fresh (non-retry) call reset the
retry counter and all subscription-scoped data slices, then open a new
socket. -/
def doConnect (symbol timeframe : String) (isRetry : Bool)
    (s : TelemetryState) : TelemetryState :=
  let s := { s with ws := false, retryTimeout := false }
  let s :=
    if isRetry then s
    else
      { s with
        retryCount := 0
        activeSymbol := symbol
        activeTimeframe := timeframe
        candles := []
        isConnected := false
        smcData := none
        sessionData := none
        latestPrice := none
        liquidityHeatmap := none
        mlProjection := connectingProjection
        tacticalDecision := connectingTactical symbol }
  { s with ws := true }

/-- `connect` (`telemetryStore.ts:611-614`): a caller-initiated fresh connect,
defaulting the timeframe to the active one. -/
def connect (symbol : String) (timeframe : Option String)
    (s : TelemetryState) : TelemetryState :=
  doConnect symbol (timeframe.getD s.activeTimeframe) false s

/-- `setTimeframe` (`telemetryStore.ts:616-619`): a fresh connect to the
active symbol with a new timeframe. -/
def setTimeframe (tf : String) (s : TelemetryState) : TelemetryState :=
  doConnect s.activeSymbol tf false s

/-- `ws.onopen` (`telemetryStore.ts:445-448`): only sets the connectivity
flag. -/
def onopen (s : TelemetryState) : TelemetryState :=
  { s with isConnected := true }

/-- `ws.onclose` (`telemetryStore.ts:566-579`): clear the connectivity flag;
when the close code is not 1000 and the retry counter is below `MAX_RETRIES`,
increment the counter and schedule a retry timer. -/
def onclose (code : Nat) (s : TelemetryState) : TelemetryState :=
  let s := { s with isConnected := false }
  if code ≠ 1000 ∧ s.retryCount < MAX_RETRIES then
    { s with retryCount := s.retryCount + 1, retryTimeout := true }
  else s

/-- `disconnect` (`telemetryStore.ts:621-626`): close and null the socket if
one exists.  It touches neither the pending retry timer nor the retry
counter, and sets no "intentional close" flag. -/
def disconnect (s : TelemetryState) : TelemetryState :=
  if s.ws then { s with ws := false } else s

/-- The pending retry timer firing (`telemetryStore.ts:575-577`): a retry
`doConnect` to the subscription captured when the timer was scheduled. -/
def fireRetry (s : TelemetryState) : TelemetryState :=
  if s.retryTimeout then doConnect s.activeSymbol s.activeTimeframe true s else s

/-- The candle branch of `ws.onmessage` (`telemetryStore.ts:454-480`): upsert
the tick into the ledger and set the latest price to the tick's close.
No validation of the tick's fields is performed. -/
def handleCandleTick (c : Candle) (s : TelemetryState) : TelemetryState :=
  { s with candles := upsertCandle s.candles c, latestPrice := some c.close }

/-- The store's initial state (`telemetryStore.ts:587-609`), with the
closure variables `ws = null`, `retryCount = 0`, `retryTimeout = null`.
The initial log's wall-clock timestamp is irrelevant to every claim and is
fixed to the empty string. -/
def initialState : TelemetryState where
  isConnected := false
  activeSymbol := "BTCUSDT"
  activeTimeframe := "15m"
  candles := []
  latestPrice := none
  mlProjection := ⟨"ALCISTA", 64, none⟩
  liquidityHeatmap := none
  neuralLogs := [⟨"init", "", "SYSTEM",
    "Modelo XGBoost cargado exitosamente. Pesos calibrados para volatilidad actual."⟩]
  tacticalDecision :=
    { regime := "DESCUBRIENDO..."
      strategy := "STANDBY"
      reasoning := "Inicializando motores de inferencia."
      nearest_support := none
      nearest_resistance := none
      sma_fast := none
      sma_slow := none
      sma_slow_slope := none
      bb_width := none
      bb_width_mean := none
      dist_to_sma200 := none
      signals := []
      key_levels := ⟨[], []⟩ }
  smcData := none
  sessionData := none
  ghostData := none
  ws := false
  retryCount := 0
  retryTimeout := false

/-! ## Pane layout (`TradingChart.tsx:247-272`) -/

/-- A lightweight-charts price-scale margin pair: the pane spans the vertical
band from fraction `top` (from the top) down to fraction `1 - bottom`. -/
structure ScaleMargins where
  top : ℚ
  bottom : ℚ
  deriving DecidableEq, Repr

/-- The margins applied by one run of the Dynamic Subpanels Layout effect:
margins for the main (`right`) scale and the volume scale are always applied;
oscillator margins only for the enabled oscillators. -/
structure PaneLayout where
  mainMargins : ScaleMargins
  volumeMargins : ScaleMargins
  rsiMargins : Option ScaleMargins
  macdMargins : Option ScaleMargins
  deriving DecidableEq, Repr

/-- The Dynamic Subpanels Layout computation (`TradingChart.tsx:247-272`):
`mainBottom` is 0.45 with both oscillators, 0.25 with exactly one, 0.08 with
none; the main scale gets margins `(0.05, mainBottom + 0.20)`, the volume
scale `(1 - mainBottom - 0.15, mainBottom)`, and each enabled oscillator the
fixed margins of its branch. -/
def paneLayout (rsiOn macdOn : Bool) : PaneLayout :=
  let mainBottom : ℚ :=
    if rsiOn && macdOn then 45/100
    else if rsiOn then 25/100
    else if macdOn then 25/100
    else 8/100
  let rsiM : Option ScaleMargins :=
    if rsiOn && macdOn then some ⟨58/100, 24/100⟩
    else if rsiOn then some ⟨77/100, 2/100⟩
    else none
  let macdM : Option ScaleMargins :=
    if rsiOn && macdOn then some ⟨78/100, 2/100⟩
    else if rsiOn then none
    else if macdOn then some ⟨77/100, 2/100⟩
    else none
  { mainMargins := ⟨5/100, mainBottom + 20/100⟩
    volumeMargins := ⟨1 - mainBottom - 15/100, mainBottom⟩
    rsiMargins := rsiM
    macdMargins := macdM }

/-- The vertical fraction of the chart a margin pair assigns to its pane. -/
def span (m : ScaleMargins) : ℚ := 1 - m.top - m.bottom

/-- The margin pairs of the panes active in a layout. -/
def activePanes (p : PaneLayout) : List ScaleMargins :=
  [p.mainMargins, p.volumeMargins] ++ p.rsiMargins.toList ++ p.macdMargins.toList

/-- Total height fraction covered by the active panes. -/
def spanSum (p : PaneLayout) : ℚ :=
  ((activePanes p).map span).sum

/-- Pairwise non-overlap of the vertical bands `[top, 1 - bottom]` of the
given margin pairs. -/
def noOverlapB : List ScaleMargins → Bool
  | [] => true
  | a :: rest =>
      rest.all (fun b => decide (1 - a.bottom ≤ b.top) || decide (1 - b.bottom ≤ a.top))
        && noOverlapB rest

/-! ## Indicators store (`indicatorsStore.ts`) -/

/-- `Indicator`. -/
structure Indicator where
  id : String
  label : String
  sublabel : String
  enabled : Bool
  color : String
  deriving DecidableEq, Repr

/-- The per-element function of `toggleIndicator`'s map
(`indicatorsStore.ts:33-35`). -/
def toggleOne (id : String) (ind : Indicator) : Indicator :=
  if ind.id = id then { ind with enabled := !ind.enabled } else ind

/-- `toggleIndicator` (`indicatorsStore.ts:31-36`): map over the list,
flipping `enabled` exactly on id match. -/
def toggleIndicator (id : String) (inds : List Indicator) : List Indicator :=
  inds.map (toggleOne id)

/-- `INDICATOR_DEFAULTS` (`indicatorsStore.ts:17-27`). -/
def INDICATOR_DEFAULTS : List Indicator :=
  [ ⟨"ema20", "EMA 20", "Media móvil rápida", true, "#00E5FF"⟩,
    ⟨"ema50", "EMA 50", "Media móvil media", true, "#FFC107"⟩,
    ⟨"ema200", "EMA 200", "Media móvil lenta", false, "#EF5350"⟩,
    ⟨"bb", "Bollinger", "Bandas de volatilidad", false, "#9C27B0"⟩,
    ⟨"volume", "Volumen", "Barras de volumen", true, "#00FF41"⟩,
    ⟨"rsi", "RSI (14)", "Fuerza relativa", false, "#FF7043"⟩,
    ⟨"macd", "MACD", "Convergencia/Divergencia", false, "#26A69A"⟩,
    ⟨"smc", "SMC Blocks", "Estructura Institucional (OBs)", true, "#00FF41"⟩,
    ⟨"fvg", "Fair Value Gaps", "Vacíos de Liquidez (FVG)", true, "#FFCC00"⟩ ]

/-! ## Concrete inputs used in counterexamples and witnesses -/

/-- A candle with all price fields equal to `v` and unit volume. -/
def mkC (t : Int) (v : ℚ) : Candle := ⟨t, v, v, v, v, 1⟩

/-- Forty same-close candles at times `0..39`; enough history for the
12/26/9 MACD to produce a signal line. -/
def demo40 : List Candle := (List.range 40).map (fun i => mkC i 4)

/-- Fifteen candles with strictly increasing closes `0,1,...,14`, the RSI
warmup window for period 14. -/
def demoRising : List Candle := (List.range 15).map (fun i => mkC i i)

/-- A malformed tick: `high < low` and negative volume. -/
def badCandle : Candle := ⟨5, 10, 1, 9, 7, -3⟩

/-!
## Theorems

General facts about `chainB`, then the claim theorems.
-/

theorem chainB_tail {r : α → α → Bool} {l : List α}
    (h : chainB r l = true) : chainB r l.tail = true := by
  match l with
  | [] => exact h
  | [a] => rfl
  | a :: b :: t => exact (Bool.and_eq_true_iff.mp h).2

theorem chainB_cons_head {r : α → α → Bool} {a b : α} {l : List α}
    (h : chainB r (a :: l) = true) (hb : l.head? = some b) : r a b = true := by
  match l, hb with
  | x :: t, rfl => exact (Bool.and_eq_true_iff.mp h).1

theorem chainB_snoc (r : α → α → Bool) :
    ∀ (l : List α) (c : α), chainB r (l ++ [c]) = (chainB r l && lastRelB r l c)
  | [], c => by simp [chainB, lastRelB]
  | [a], c => by simp [chainB, lastRelB]
  | a :: b :: t, c => by
    show (r a b && chainB r ((b :: t) ++ [c])) = _
    rw [chainB_snoc r (b :: t) c]
    have h2 : lastRelB r (a :: b :: t) c = lastRelB r (b :: t) c := by
      unfold lastRelB
      rw [List.getLast?_cons_cons]
    show _ = (chainB r (a :: b :: t) && lastRelB r (a :: b :: t) c)
    rw [h2, ← Bool.and_assoc]
    rfl

theorem getLast?_upsertCandle (l : List Candle) (c : Candle) :
    (upsertCandle l c).getLast? = some c := by
  have hcap : ∀ xs : List Candle,
      ((if (xs ++ [c]).length > 1000 then (xs ++ [c]).drop 1 else xs ++ [c]) : List Candle).getLast?
        = some c := by
    intro xs
    split
    · match xs with
      | [] => simp_all
      | a :: t => simp [List.drop_one, List.getLast?_concat t]
    · exact List.getLast?_concat xs
  unfold upsertCandle
  split
  · split
    · next last hL _ =>
      obtain ⟨ys, rfl⟩ := List.getLast?_eq_some_iff.mp hL
      rw [List.dropLast_concat]
      exact List.getLast?_concat ys
    · exact hcap l
  · exact hcap l

theorem upsert_asc (l : List Candle) (c : Candle)
    (hasc : ascTimesB l = true)
    (hle : ∀ x, l.getLast? = some x → x.time ≤ c.time) :
    ascTimesB (upsertCandle l c) = true := by
  have hlt : ∀ xs : List Candle, ascTimesB (xs ++ [c]) = true →
      ascTimesB ((if (xs ++ [c]).length > 1000 then (xs ++ [c]).drop 1 else xs ++ [c]) : List Candle)
        = true := by
    intro xs hxs
    split
    · rw [List.drop_one]; exact chainB_tail hxs
    · exact hxs
  unfold upsertCandle
  split
  · next last hL =>
    split
    · next heq =>
      obtain ⟨ys, rfl⟩ := List.getLast?_eq_some_iff.mp hL
      rw [List.dropLast_concat]
      unfold ascTimesB at hasc ⊢
      rw [chainB_snoc] at hasc ⊢
      obtain ⟨h1, h2⟩ := Bool.and_eq_true_iff.mp hasc
      refine Bool.and_eq_true_iff.mpr ⟨h1, ?_⟩
      unfold lastRelB at h2 ⊢
      match hy : ys.getLast? with
      | none => rfl
      | some x =>
        rw [hy] at h2
        simp only [decide_eq_true_eq] at h2 ⊢
        exact heq ▸ h2
    · next hne =>
      refine hlt l ?_
      unfold ascTimesB at hasc ⊢
      rw [chainB_snoc]
      refine Bool.and_eq_true_iff.mpr ⟨hasc, ?_⟩
      unfold lastRelB
      rw [hL]
      simp only [decide_eq_true_eq]
      exact lt_of_le_of_ne (hle last hL) (fun h => hne h)
  · next hL =>
    refine hlt l ?_
    unfold ascTimesB at hasc ⊢
    rw [chainB_snoc]
    refine Bool.and_eq_true_iff.mpr ⟨hasc, ?_⟩
    unfold lastRelB
    rw [hL]

theorem upsert_fold_aux :
    ∀ (ticks : List Candle) (l : List Candle),
      ascTimesB l = true →
      (∀ x, l.getLast? = some x → ∀ t, ticks.head? = some t → x.time ≤ t.time) →
      leTimesB ticks = true →
      ascTimesB (ticks.foldl upsertCandle l) = true
  | [], _, h, _, _ => h
  | t :: rest, l, hasc, hhead, hle => by
    have step : ascTimesB (upsertCandle l t) = true :=
      upsert_asc l t hasc (fun x hx => hhead x hx t rfl)
    have hlast := getLast?_upsertCandle l t
    refine upsert_fold_aux rest (upsertCandle l t) step ?_ (chainB_tail hle)
    intro x hx u hu
    rw [hlast] at hx
    cases hx
    have := chainB_cons_head hle hu
    simpa using this

/-- C1.  The spec claims an out-of-order tick (time ≤ an earlier stored time,
other than the last stored time) is rejected.  On the code it is appended: a
tick at time 100 followed by a tick at time 50 leaves the ledger `[100, 50]`,
which is not strictly ascending by time. -/
theorem upsert_out_of_order_not_rejected :
    ([mkC 100 1, mkC 50 2].foldl upsertCandle []) = [mkC 100 1, mkC 50 2]
      ∧ ascTimesB ([mkC 100 1, mkC 50 2].foldl upsertCandle []) = false := by
  constructor <;> rfl

/-- C1 (amended).  A tick whose time equals the last stored candle's time
replaces that candle in place; ANY other tick is appended (evicting the
oldest candle when the length exceeds 1000); out-of-order ticks are not
rejected.  Consequently the ledger is strictly ascending with no duplicate
time keys provided the tick times arrive non-decreasing, which in particular
covers repeated same-time updates of the in-progress bar. -/
theorem upsert_fold_sorted (ticks : List Candle) (h : leTimesB ticks = true) :
    ascTimesB (ticks.foldl upsertCandle []) = true := by
  refine upsert_fold_aux ticks [] rfl ?_ h
  intro x hx
  simp at hx

/-- Witness for C1: the spec's own scenario — upsert t=100 (close 12), then
t=100 (close 13), then t=105 — is a non-decreasing tick stream, and the
resulting ledger is `[{time 100, close 13}, {time 105}]`, strictly
ascending. -/
theorem upsert_fold_sorted_witness :
    leTimesB [mkC 100 12, mkC 100 13, mkC 105 1] = true
      ∧ ascTimesB ([mkC 100 12, mkC 100 13, mkC 105 1].foldl upsertCandle []) = true
      ∧ ([mkC 100 12, mkC 100 13, mkC 105 1].foldl upsertCandle [])
          = [mkC 100 13, mkC 105 1] :=
  ⟨by decide, upsert_fold_sorted _ (by decide), by rfl⟩

/-- C4.  The code bug behind reconnect suppression: `disconnect` closes the
socket but does not cancel a pending retry timer (and passes no close code,
so its own close handler cannot recognize the closure as intentional).  After
one unexpected close has scheduled a retry, calling `disconnect` leaves the
timer pending, and when it fires a new connection is opened despite the
deliberate teardown. -/
theorem disconnect_leaves_pending_retry :
    (onclose 1006 (doConnect "BTCUSDT" "15m" false initialState)).retryTimeout = true
      ∧ (disconnect (onclose 1006 (doConnect "BTCUSDT" "15m" false initialState))).retryTimeout
          = true
      ∧ (disconnect (onclose 1006 (doConnect "BTCUSDT" "15m" false initialState))).ws = false
      ∧ (fireRetry (disconnect (onclose 1006 (doConnect "BTCUSDT" "15m" false initialState)))).ws
          = true := by
  refine ⟨rfl, rfl, rfl, rfl⟩

/-- C5.  A successful re-establishment on the retry path does NOT reset the
retry counter: after a fresh connect, one unexpected close (scheduling retry
number 1), the retry `doConnect`, and a successful `onopen`, the session is
connected but `retryCount` is still 1, not 0. -/
theorem retry_success_keeps_retryCount :
    (onopen (doConnect "BTCUSDT" "15m" true
        (onclose 1006 (doConnect "BTCUSDT" "15m" false initialState)))).isConnected = true
      ∧ (onopen (doConnect "BTCUSDT" "15m" true
          (onclose 1006 (doConnect "BTCUSDT" "15m" false initialState)))).retryCount = 1
      ∧ (1 : Nat) ≠ 0 := by
  refine ⟨rfl, rfl, by decide⟩

/-- C5 (amended).  Only a fresh (caller-initiated, non-retry) `doConnect`
resets `retryCount` to zero; neither a successful open (`onopen`) nor a retry
`doConnect` changes the counter, so after a successful automatic
re-establishment a later unexpected disconnect continues from the incremented
count rather than the full budget. -/
theorem retryCount_reset_only_on_fresh_connect (s : TelemetryState) (symbol tf : String) :
    (onopen s).retryCount = s.retryCount
      ∧ (doConnect symbol tf true s).retryCount = s.retryCount
      ∧ (doConnect symbol tf false s).retryCount = 0 := by
  refine ⟨rfl, rfl, rfl⟩

/-- C6.  No validation happens at the ledger boundary: a tick with
`high < low` and negative volume is stored into the empty ledger and becomes
the latest price, so the previous state is NOT retained. -/
theorem malformed_candle_stored :
    badCandle.high < badCandle.low
      ∧ badCandle.volume < 0
      ∧ initialState.candles = []
      ∧ (handleCandleTick badCandle initialState).candles = [badCandle]
      ∧ (handleCandleTick badCandle initialState).latestPrice = some badCandle.close := by
  refine ⟨by decide, by decide, rfl, rfl, rfl⟩

/-- C6 (amended).  A malformed candle tick (`high < low` or negative volume)
is not rejected: the candle handler stores it like any other tick — it
becomes the last ledger entry and its close becomes the latest price. -/
theorem handleCandleTick_stores_malformed (s : TelemetryState) (c : Candle)
    (_hmal : c.high < c.low ∨ c.volume < 0) :
    (handleCandleTick c s).candles.getLast? = some c
      ∧ (handleCandleTick c s).latestPrice = some c.close := by
  exact ⟨getLast?_upsertCandle s.candles c, rfl⟩

/-- Witness for C6 (amended): the inverted, negative-volume `badCandle` is
stored even from the initial state. -/
theorem handleCandleTick_stores_malformed_witness :
    (badCandle.high < badCandle.low ∨ badCandle.volume < 0)
      ∧ (handleCandleTick badCandle initialState).candles.getLast? = some badCandle
      ∧ (handleCandleTick badCandle initialState).latestPrice = some badCandle.close :=
  ⟨Or.inl (by decide),
    (handleCandleTick_stores_malformed initialState badCandle (Or.inl (by decide))).1,
    (handleCandleTick_stores_malformed initialState badCandle (Or.inl (by decide))).2⟩

/-- C9.  A fresh (non-retry) connect — which is exactly what `connect` and
`setTimeframe` perform — resets candles, latestPrice, smcData, sessionData,
liquidityHeatmap, mlProjection, and tacticalDecision to their initial
empty/null placeholders, while `neuralLogs` and `ghostData` carry over
unchanged from the previous subscription. -/
theorem doConnect_fresh_resets_slices (s : TelemetryState) (symbol tf : String)
    (tfOpt : Option String) :
    (doConnect symbol tf false s).candles = []
      ∧ (doConnect symbol tf false s).latestPrice = none
      ∧ (doConnect symbol tf false s).smcData = none
      ∧ (doConnect symbol tf false s).sessionData = none
      ∧ (doConnect symbol tf false s).liquidityHeatmap = none
      ∧ (doConnect symbol tf false s).mlProjection = connectingProjection
      ∧ (doConnect symbol tf false s).tacticalDecision = connectingTactical symbol
      ∧ (doConnect symbol tf false s).neuralLogs = s.neuralLogs
      ∧ (doConnect symbol tf false s).ghostData = s.ghostData
      ∧ connect symbol tfOpt s = doConnect symbol (tfOpt.getD s.activeTimeframe) false s
      ∧ setTimeframe tf s = doConnect s.activeSymbol tf false s := by
  refine ⟨rfl, rfl, rfl, rfl, rfl, rfl, rfl, rfl, rfl, rfl, rfl⟩

theorem toggleOne_involutive (id : String) (a : Indicator) :
    toggleOne id (toggleOne id a) = a := by
  unfold toggleOne
  by_cases h : a.id = id
  · subst h
    simp
  · simp [h]

theorem toggleOne_id (id : String) (a : Indicator) : (toggleOne id a).id = a.id := by
  unfold toggleOne
  by_cases h : a.id = id <;> simp [h]

theorem toggleOne_label (id : String) (a : Indicator) :
    (toggleOne id a).label = a.label := by
  unfold toggleOne
  by_cases h : a.id = id <;> simp [h]

theorem toggleOne_sublabel (id : String) (a : Indicator) :
    (toggleOne id a).sublabel = a.sublabel := by
  unfold toggleOne
  by_cases h : a.id = id <;> simp [h]

theorem toggleOne_color (id : String) (a : Indicator) :
    (toggleOne id a).color = a.color := by
  unfold toggleOne
  by_cases h : a.id = id <;> simp [h]

theorem toggleOne_enabled (id : String) (a : Indicator) :
    (toggleOne id a).enabled = if a.id = id then !a.enabled else a.enabled := by
  unfold toggleOne
  by_cases h : a.id = id <;> simp [h]

theorem toggleIndicator_no_match (id : String) :
    ∀ inds : List Indicator, (∀ ind ∈ inds, ind.id ≠ id) →
      toggleIndicator id inds = inds
  | [], _ => rfl
  | a :: t, h => by
    have ih := toggleIndicator_no_match id t (fun x hx => h x (List.mem_cons_of_mem a hx))
    have ha : toggleOne id a = a := by
      unfold toggleOne
      simp [h a (List.mem_cons_self a t)]
    simp only [toggleIndicator, List.map_cons] at ih ⊢
    rw [ha, ih]

/-- C10.  `toggleIndicator id` flips exactly the `enabled` flag of the
indicators whose id matches: the list length/order and the id, label,
sublabel, and color at every position are preserved, the enabled flag at
position `i` is flipped iff that indicator's id is `id`, the list is
unchanged when no indicator carries the id, and toggling twice restores the
original list. -/
theorem toggleIndicator_spec (inds : List Indicator) (id : String) :
    toggleIndicator id (toggleIndicator id inds) = inds
      ∧ (∀ i : Nat,
          (toggleIndicator id inds)[i]?.map Indicator.id = inds[i]?.map Indicator.id
            ∧ (toggleIndicator id inds)[i]?.map Indicator.label = inds[i]?.map Indicator.label
            ∧ (toggleIndicator id inds)[i]?.map Indicator.sublabel
                = inds[i]?.map Indicator.sublabel
            ∧ (toggleIndicator id inds)[i]?.map Indicator.color = inds[i]?.map Indicator.color
            ∧ (toggleIndicator id inds)[i]?.map Indicator.enabled
                = inds[i]?.map (fun ind => if ind.id = id then !ind.enabled else ind.enabled))
      ∧ ((∀ ind ∈ inds, ind.id ≠ id) → toggleIndicator id inds = inds) := by
  refine ⟨?_, ?_, toggleIndicator_no_match id inds⟩
  · simp [toggleIndicator, List.map_map, Function.comp_def, toggleOne_involutive]
  · intro i
    cases h : inds[i]? with
    | none => simp [toggleIndicator, List.getElem?_map, h]
    | some a =>
      simp [toggleIndicator, List.getElem?_map, h, toggleOne_id, toggleOne_label,
        toggleOne_sublabel, toggleOne_color, toggleOne_enabled]

/-- Witness for C10: double-toggling `rsi` restores the default indicator
list, and toggling an id nobody carries leaves the defaults unchanged. -/
theorem toggleIndicator_spec_witness :
    toggleIndicator "rsi" (toggleIndicator "rsi" INDICATOR_DEFAULTS) = INDICATOR_DEFAULTS
      ∧ toggleIndicator "vwap" INDICATOR_DEFAULTS = INDICATOR_DEFAULTS :=
  ⟨(toggleIndicator_spec INDICATOR_DEFAULTS "rsi").1,
    (toggleIndicator_spec INDICATOR_DEFAULTS "vwap").2.2 (by decide)⟩

theorem chainB_of_pairwise {r : α → α → Bool} :
    ∀ l : List α, l.Pairwise (fun a b => r a b = true) → chainB r l = true
  | [], _ => rfl
  | [_], _ => rfl
  | a :: b :: t, h => by
    rw [List.pairwise_cons] at h
    have h1 := h.1 b (List.mem_cons_self b t)
    have h2 := chainB_of_pairwise (b :: t) h.2
    simp [chainB, h1, h2]

theorem ascTimesB_cons_of_eq_time {prev c : Candle} (h : prev.time = c.time)
    {xs : List Candle} (hc : ascTimesB (c :: xs) = true) :
    ascTimesB (prev :: xs) = true := by
  cases xs with
  | nil => rfl
  | cons y t =>
    simp only [ascTimesB, chainB, Bool.and_eq_true_iff] at hc ⊢
    exact ⟨by rw [h]; exact hc.1, hc.2⟩

theorem dedupeGo_asc :
    ∀ (l : List Candle) (prev : Candle),
      leTimesB (prev :: l) = true → ascTimesB (prev :: dedupeGo prev l) = true
  | [], _, _ => rfl
  | c :: rest, prev, h => by
    have hpc : prev.time ≤ c.time := by
      have := chainB_cons_head h (b := c) rfl
      simpa using this
    have ih := dedupeGo_asc rest c (chainB_tail h)
    unfold dedupeGo
    by_cases hne : c.time ≠ prev.time
    · rw [if_pos hne]
      have hlt : prev.time < c.time := lt_of_le_of_ne hpc (fun he => hne he.symm)
      simp only [ascTimesB, chainB, Bool.and_eq_true_iff] at ih ⊢
      exact ⟨by simpa using hlt, ih⟩
    · rw [if_neg hne]
      push_neg at hne
      exact ascTimesB_cons_of_eq_time hne.symm ih

/-- C7.  The sanitize step keeps the FIRST occurrence of a duplicated time,
not the last: two same-time candles with closes 10 and 20 collapse to the
close-10 candle.  (Keeping the last occurrence would have produced the
close-20 candle.) -/
theorem sanitize_keeps_first_occurrence :
    sanitize [mkC 1 10, mkC 1 20] = [mkC 1 10]
      ∧ sanitize [mkC 1 10, mkC 1 20] ≠ [mkC 1 20] := by
  have hms : List.mergeSort [mkC 1 10, mkC 1 20]
      (fun a b : Candle => decide (a.time ≤ b.time)) = [mkC 1 10, mkC 1 20] :=
    List.mergeSort_of_sorted (by simp [List.pairwise_cons, mkC])
  have h1 : sanitize [mkC 1 10, mkC 1 20] = [mkC 1 10] := by
    unfold sanitize
    rw [hms]
    decide
  refine ⟨h1, ?_⟩
  rw [h1]
  decide

/-- C7 (amended).  `sanitize` stably sorts the candles ascending by time and
collapses entries with equal time keeping the first occurrence of each
duplicated time, yielding a strictly ascending, duplicate-free list. -/
theorem sanitize_sorted (candles : List Candle) :
    ascTimesB (sanitize candles) = true := by
  have trans : ∀ a b c : Candle,
      decide (a.time ≤ b.time) → decide (b.time ≤ c.time) → decide (a.time ≤ c.time) := by
    intro a b c hab hbc
    simp only [decide_eq_true_eq] at *
    exact le_trans hab hbc
  have total : ∀ a b : Candle,
      decide (a.time ≤ b.time) || decide (b.time ≤ a.time) := by
    intro a b
    rcases le_total a.time b.time with h | h <;> simp [h]
  have hp := @List.sorted_mergeSort Candle (fun a b => decide (a.time ≤ b.time))
    trans total candles
  have hs : leTimesB (candles.mergeSort (fun a b => decide (a.time ≤ b.time))) = true :=
    chainB_of_pairwise _ hp
  unfold sanitize
  cases hms : candles.mergeSort (fun a b => decide (a.time ≤ b.time)) with
  | nil => rfl
  | cons c rest =>
    rw [hms] at hs
    exact dedupeGo_asc rest c hs

/-- C8.  The pane spans do not partition the full height: with both
oscillators enabled the main pane, volume strip, RSI pane and MACD pane
cover `30/100 + 15/100 + 18/100 + 20/100 = 83/100` of the height, not the
whole of it. -/
theorem paneLayout_spans_do_not_sum_to_one :
    spanSum (paneLayout true true) = 83/100
      ∧ spanSum (paneLayout true true) ≠ 1 := by
  have h : spanSum (paneLayout true true) = 83/100 := by
    norm_num [spanSum, activePanes, paneLayout, span]
  refine ⟨h, ?_⟩
  rw [h]
  norm_num

theorem deltas_pos :
    ∀ l : List Candle,
      chainB (fun a b => decide (a.close < b.close)) l = true →
      ∀ d ∈ deltas l, 0 < d
  | [], _, d, hd => by simp [deltas] at hd
  | [_], _, d, hd => by simp [deltas] at hd
  | a :: b :: t, h, d, hd => by
    obtain ⟨h1, h2⟩ := Bool.and_eq_true_iff.mp h
    have hab : a.close < b.close := by simpa using h1
    rw [show deltas (a :: b :: t) = (b.close - a.close) :: deltas (b :: t) from rfl] at hd
    rcases List.mem_cons.mp hd with rfl | hmem
    · linarith
    · exact deltas_pos (b :: t) h2 d hmem

theorem rsiPoint_zero_loss (g : ℚ) : rsiPoint g 0 = 10000/101 := by
  unfold rsiPoint
  norm_num

theorem rsi_first_value_all_gain (candles : List Candle) (period : Nat)
    (hlen : ¬ candles.length < period + 1)
    (hinc : chainB (fun a b => decide (a.close < b.close)) (candles.take (period + 1)) = true) :
    (calcRSI candles period).head?.map Point.value = some (10000/101) := by
  have hpos := deltas_pos (candles.take (period + 1)) hinc
  have hsum : ((deltas (candles.take (period + 1))).map
      (fun d => if d > 0 then (0 : ℚ) else -d)).sum = 0 := by
    apply List.sum_eq_zero
    intro x hx
    rcases List.mem_map.mp hx with ⟨d, hd, rfl⟩
    rw [if_pos (hpos d hd)]
  cases hdrop : candles.drop period with
  | nil =>
    exfalso
    have := List.drop_eq_nil_iff.mp hdrop
    omega
  | cons c0 rest =>
    simp only [calcRSI, if_neg hlen, hdrop, List.head?_cons, Option.map_some]
    rw [hsum, zero_div, rsiPoint_zero_loss]
    rfl

/-- C2.  A strictly increasing close sequence over the RSI warmup window does
NOT yield a first RSI value of 100: the code sets the relative strength `rs`
to 100 when the average loss is zero, so the first value is
`100 - 100/(1 + 100) = 10000/101 ≈ 99.0099`, which differs from 100. -/
theorem rsi_all_gain_not_100 :
    (calcRSI demoRising 14).head?.map Point.value = some (10000/101)
      ∧ ((10000 : ℚ)/101) ≠ 100 :=
  ⟨rsi_first_value_all_gain demoRising 14 (by decide) (by decide), by norm_num⟩

/-- C2 (amended).  A zero average loss never causes a division failure: the
relative-strength value used is then 100, so every candle sequence whose
closes strictly increase over the warmup window (the first `period + 1`
candles) yields the first RSI output value `100 - 100/(1+100) = 10000/101`
(≈ 99.01), not 100 exactly. -/
theorem calcRSI_all_gain_first_value (candles : List Candle) (period : Nat)
    (hlen : ¬ candles.length < period + 1)
    (hinc : chainB (fun a b => decide (a.close < b.close)) (candles.take (period + 1)) = true) :
    (calcRSI candles period).head?.map Point.value = some (10000/101)
      ∧ ∀ g : ℚ, rsiPoint g 0 = 10000/101 :=
  ⟨rsi_first_value_all_gain candles period hlen hinc, fun g => rsiPoint_zero_loss g⟩

/-- Witness for C2 (amended): the fifteen-candle strictly increasing close
sequence `0,1,...,14` satisfies the hypotheses, and its first RSI-14 value is
`10000/101`. -/
theorem calcRSI_all_gain_first_value_witness :
    (¬ demoRising.length < 14 + 1)
      ∧ chainB (fun a b => decide (a.close < b.close)) (demoRising.take (14 + 1)) = true
      ∧ (calcRSI demoRising 14).head?.map Point.value = some (10000/101) :=
  ⟨by decide, by decide,
    (calcRSI_all_gain_first_value demoRising 14 (by decide) (by decide)).1⟩

theorem emaLoop_map_time :
    ∀ (cs : List Candle) (k e : ℚ),
      (emaLoop k e cs).map Point.time = cs.map Candle.time
  | [], _, _ => rfl
  | c :: rest, k, e => by
    simp only [emaLoop, List.map_cons]
    rw [emaLoop_map_time rest k _]

theorem calcEMA_map_time_sub (l : List Candle) (per : Nat) :
    ∀ t ∈ (calcEMA l per).map Point.time, t ∈ l.map Candle.time := by
  intro t ht
  unfold calcEMA at ht
  by_cases h : l.length < per
  · rw [if_pos h] at ht
    simp at ht
  · rw [if_neg h] at ht
    cases hdrop : l.drop (per - 1) with
    | nil =>
      rw [hdrop] at ht
      simp at ht
    | cons seedC rest =>
      rw [hdrop] at ht
      have hsub : t ∈ (l.drop (per - 1)).map Candle.time := by
        rw [hdrop]
        simp only [List.map_cons, List.mem_cons] at ht ⊢
        rcases ht with rfl | ht
        · exact Or.inl rfl
        · rw [emaLoop_map_time] at ht
          exact Or.inr ht
      exact ((List.drop_sublist (per - 1) l).map Candle.time).subset hsub

theorem lastLookup_isSome_iff (l : List Point) (t : Int) :
    (lastLookup l t).isSome = true ↔ t ∈ l.map Point.time := by
  unfold lastLookup
  rw [Option.isSome_map', List.find?_isSome]
  constructor
  · rintro ⟨x, hx, hxt⟩
    rw [List.mem_reverse] at hx
    exact List.mem_map.mpr ⟨x, hx, by simpa [beq_iff_eq] using hxt⟩
  · intro ht
    rcases List.mem_map.mp ht with ⟨x, hx, rfl⟩
    exact ⟨x, List.mem_reverse.mpr hx, by simp⟩

theorem mem_time_filterLookup_map {β : Type} (F src : List Point) (f : Point → β)
    (timeOf : β → Int) (hf : ∀ d, timeOf (f d) = d.time) (t : Int) :
    (t ∈ ((F.filter (fun d => (lastLookup src d.time).isSome)).map f).map timeOf
      ↔ (t ∈ F.map Point.time ∧ t ∈ src.map Point.time)) := by
  constructor
  · intro ht
    rcases List.mem_map.mp ht with ⟨b, hb, rfl⟩
    rcases List.mem_map.mp hb with ⟨d, hd, rfl⟩
    rcases List.mem_filter.mp hd with ⟨hdF, hdP⟩
    rw [hf d]
    exact ⟨List.mem_map.mpr ⟨d, hdF, rfl⟩, (lastLookup_isSome_iff src d.time).mp hdP⟩
  · rintro ⟨htF, htS⟩
    rcases List.mem_map.mp htF with ⟨d, hdF, rfl⟩
    have hdP : (lastLookup src d.time).isSome = true :=
      (lastLookup_isSome_iff src d.time).mpr htS
    refine List.mem_map.mpr ⟨f d, List.mem_map.mpr ⟨d, ?_, rfl⟩, hf d⟩
    exact List.mem_filter.mpr ⟨hdF, hdP⟩

/-- C3.  The three MACD series do not share the same timestamp set: on forty
constant-close candles at times 0..39, the macd line contains timestamp 25
while the signal line and histogram (which start only after the signal EMA
warmup over the macd line) do not. -/
theorem macd_series_timestamp_mismatch :
    (∃ p ∈ (calcMACD demo40 12 26 9).macdLine, p.time = 25)
      ∧ ¬ (∃ p ∈ (calcMACD demo40 12 26 9).signalLine, p.time = 25)
      ∧ ¬ (∃ p ∈ (calcMACD demo40 12 26 9).histogram, p.time = 25) := by
  exact ⟨by decide, by decide, by decide⟩

/-- C3 (amended).  The signal line and the histogram always have identical
timestamp sets, and every timestamp of those two series also occurs in the
macd line; but the macd line may contain timestamps that the other two series
lack (whenever it is long enough for the signal-EMA warmup to bite). -/
theorem calcMACD_alignment (candles : List Candle) (fast slow signal : Nat) :
    (∀ t : Int,
        t ∈ (calcMACD candles fast slow signal).histogram.map HistPoint.time
          ↔ t ∈ (calcMACD candles fast slow signal).signalLine.map Point.time)
      ∧ (∀ t : Int,
          t ∈ (calcMACD candles fast slow signal).signalLine.map Point.time
            → t ∈ (calcMACD candles fast slow signal).macdLine.map Point.time) := by
  have hsig : (calcMACD candles fast slow signal).signalLine
      = calcEMA ((calcMACD candles fast slow signal).macdLine.map
          (fun d => Candle.mk d.time d.value d.value d.value d.value 0)) signal := rfl
  have hhist : (calcMACD candles fast slow signal).histogram
      = (((calcMACD candles fast slow signal).macdLine.filter
            (fun d => (lastLookup (calcMACD candles fast slow signal).signalLine d.time).isSome)).map
          (fun d =>
            HistPoint.mk d.time
              (d.value
                - (lastLookup (calcMACD candles fast slow signal).signalLine d.time).getD 0)
              (if d.value
                  - (lastLookup (calcMACD candles fast slow signal).signalLine d.time).getD 0 ≥ 0
                then "#26A69A" else "#EF5350"))) := rfl
  have hsub : ∀ t : Int,
      t ∈ (calcMACD candles fast slow signal).signalLine.map Point.time
        → t ∈ (calcMACD candles fast slow signal).macdLine.map Point.time := by
    intro t ht
    rw [hsig] at ht
    have hm := calcEMA_map_time_sub
      ((calcMACD candles fast slow signal).macdLine.map
        (fun d => Candle.mk d.time d.value d.value d.value d.value 0)) signal t ht
    rw [List.map_map] at hm
    exact hm
  refine ⟨?_, hsub⟩
  intro t
  rw [hhist]
  have hH := mem_time_filterLookup_map
    (calcMACD candles fast slow signal).macdLine
    (calcMACD candles fast slow signal).signalLine
    (fun d =>
      HistPoint.mk d.time
        (d.value - (lastLookup (calcMACD candles fast slow signal).signalLine d.time).getD 0)
        (if d.value - (lastLookup (calcMACD candles fast slow signal).signalLine d.time).getD 0 ≥ 0
          then "#26A69A" else "#EF5350"))
    HistPoint.time (fun _ => rfl) t
  constructor
  · intro ht
    exact (hH.mp ht).2
  · intro ht
    exact hH.mpr ⟨hsub t ht, ht⟩

/-- C8 (amended).  For every fixed set of enabled oscillators the layout
computation is a pure function of the two flags (hence identical on repeated
invocations), and the vertical bands of the main pane, volume strip, and
active oscillator panes are pairwise non-overlapping — but they sum to
strictly less than the full height, leaving gaps between panes. -/
theorem paneLayout_disjoint_with_gaps :
    ∀ rsiOn macdOn : Bool,
      noOverlapB (activePanes (paneLayout rsiOn macdOn)) = true
        ∧ spanSum (paneLayout rsiOn macdOn) < 1 := by
  intro rsiOn macdOn
  cases rsiOn <;> cases macdOn <;>
    refine ⟨?_, ?_⟩ <;>
    norm_num [noOverlapB, activePanes, paneLayout, span, spanSum, List.all,
      Bool.and_eq_true_iff, Bool.or_eq_true_iff, decide_eq_true_eq]

end Slingshot
